import Mathlib

/-!
Verification of the `ingest.FileWriter` component (file `servers.go`, package
`ingest`): a shallow embedding of the writer's data model and operations, and
theorems settling the specification's claims about it.

Modelling conventions:
* Filesystem state is explicit: the open segment is `FWState.cur` (the writer
  owns both the file handle `f.fd` and the sole file of the `open` directory),
  the `closed` directory is `FWState.closed`.
* Fallible filesystem / network calls are driven by oracles of `Bool` fields;
  operations return explicit results together with a trace of the externally
  visible actions they performed, so that error-handling and ordering claims
  can be stated about the trace.
* `ulid.Make()` is modelled by `ulidMake` applied to a per-writer counter: an
  injective source of non-empty fresh identifier strings, which is the
  uniqueness contract of the ULID library.
* Caller-supplied records are JSON values (`Json`); the byte length of a
  record (`len(data)` in the source) is the length `jlen` of its canonical
  serialization, and a persisted line occupies its serialized length plus one
  newline byte (`segSize`).
-/

/-- JSON values, as manipulated by the writer (package `tidwall/gjson`). -/
inductive Json where
  | null
  | bool (b : Bool)
  | num (n : Int)
  | str (s : String)
  | arr (items : List Json)
  | obj (fields : List (String × Json))

mutual

/-- Byte length of the canonical (gjson `@ugly`) serialization of a JSON
value; `len(data)` for a record in its minimal textual form. -/
def jlen : Json → Nat
  | .null => 4
  | .bool true => 4
  | .bool false => 5
  | .num n => (toString n).length
  | .str s => s.length + 2
  | .arr items => jlenList items + 2
  | .obj fields => jlenFields fields + 2

/-- Serialized length of comma-separated array items. -/
def jlenList : List Json → Nat
  | [] => 0
  | [x] => jlen x
  | x :: y :: xs => jlen x + 1 + jlenList (y :: xs)

/-- Serialized length of comma-separated object fields (quoted key, colon,
value). -/
def jlenFields : List (String × Json) → Nat
  | [] => 0
  | [(k, v)] => k.length + 3 + jlen v
  | (k, v) :: f :: fs => k.length + 3 + jlen v + 1 + jlenFields (f :: fs)

end

/-- First-match lookup of a key among JSON object fields (gjson key query). -/
def lookupField : List (String × Json) → String → Option Json
  | [], _ => none
  | p :: rest, k => if p.1 = k then some p.2 else lookupField rest k

/-- One key/value step of gjson's `@join` modifier in its default
(deduplicating) mode: if the key is already present, every entry with that
key has its value replaced; otherwise the pair is appended, preserving
first-seen key order. -/
def joinInsert (acc : List (String × Json)) (k : String) (v : Json) : List (String × Json) :=
  if acc.any fun p => decide (p.1 = k) then
    acc.map fun p => if p.1 = k then (p.1, v) else p
  else acc ++ [(k, v)]

/-- Merge one array element into the accumulated object of `@join`:
object elements contribute their fields, non-object elements are skipped. -/
def joinObjInto (acc : List (String × Json)) : Json → List (String × Json)
  | .obj fs => fs.foldl (fun a kv => joinInsert a kv.1 kv.2) acc
  | _ => acc

/-- gjson's `@join` modifier (default mode) applied to an array of values:
folds all object elements into a single object with deduplicated keys in
stable order, later values overriding earlier ones. -/
def gjsonJoin (vals : List Json) : Json :=
  .obj (vals.foldl joinObjInto [])

/-- Fresh-identifier source modelling `ulid.Make().String()`: the `n`-th
identifier drawn by a writer instance. ULIDs are non-empty and unique, which
the model realizes by injectivity in the draw counter. -/
def ulidMake (n : Nat) : String :=
  String.mk (List.replicate (n + 1) 'u')

/-- An open or closed segment file: its base name and its persisted lines
(each line is one JSON value, terminated on disk by a newline). -/
structure Segment where
  name : String
  lines : List Json

/-- Size in bytes of a segment file: each line's serialized length plus its
newline terminator. -/
def segSize (seg : Segment) : Nat :=
  (seg.lines.map fun l => jlen l + 1).sum

/-- State of one `FileWriter` instance: the open segment (`f.fd`, also the
sole file of the `open` directory), the files of the `closed` directory in
creation order, whether the non-blocking rotation lock is held, and the
ULID draw counter. -/
structure FWState where
  cur : Option Segment
  closed : List Segment
  rotating : Bool
  ulidCtr : Nat

/-- All lines of a list of closed segments, in file order. -/
def closedLines : List Segment → List Json
  | [] => []
  | seg :: rest => seg.lines ++ closedLines rest

/-- Every line ever persisted by the writer instance and still on local disk:
closed segments first, then the open segment. -/
def allLines (s : FWState) : List Json :=
  closedLines s.closed ++ (match s.cur with | some seg => seg.lines | none => [])

/-- The filesystem steps of `Rotate`, in program order. -/
inductive RotStep where
  | statS
  | closeS
  | mkdirClosedS
  | renameS
  | mkdirOpenS
  | openS
deriving DecidableEq, Repr

/-- Outcome of a `Rotate` call: the skipped no-op when the rotation lock was
held, success, or the first filesystem error (returned to the caller). -/
inductive RotResult where
  | skipped
  | ok
  | error (st : RotStep)
deriving DecidableEq, Repr

/-- Failure oracle for the filesystem calls of one `Rotate` execution. -/
structure RotOracle where
  statOk : Bool
  closeOk : Bool
  mkdirClosedOk : Bool
  renameOk : Bool
  mkdirOpenOk : Bool
  openOk : Bool

/-- The all-success filesystem oracle. -/
def allRotOk : RotOracle :=
  ⟨true, true, true, true, true, true⟩

/-- The `createNew` phase of `Rotate`: draw a fresh ULID for the file name
(consumed before `MkdirAll`), ensure the `open` directory, open the new
`<ulid>.ndjson` file.  Any error is returned and ends the call. -/
def rotateOpenPhase (o : RotOracle) (createNew : Bool) (s : FWState) (tr : List RotStep) :
    RotResult × FWState × List RotStep :=
  if createNew then
    let nm := ulidMake s.ulidCtr ++ ".ndjson"
    let s1 : FWState := { s with ulidCtr := s.ulidCtr + 1 }
    if o.mkdirOpenOk = false then (.error .mkdirOpenS, s1, tr ++ [.mkdirOpenS])
    else if o.openOk = false then (.error .openS, s1, tr ++ [.mkdirOpenS, .openS])
    else (.ok, { s1 with cur := some ⟨nm, []⟩ }, tr ++ [.mkdirOpenS, .openS])
  else (.ok, s, tr)

/-- Body of `Rotate` once the rotation lock is held: if an open segment
exists, stat it, close the handle, ensure the `closed` directory, and rename
the file into it under its unchanged base name; then the `createNew` phase.
Each filesystem error aborts the remaining steps and is returned. -/
def rotateBody (o : RotOracle) (createNew : Bool) (s : FWState) :
    RotResult × FWState × List RotStep :=
  match s.cur with
  | some seg =>
    if o.statOk = false then (.error .statS, s, [.statS])
    else if o.closeOk = false then (.error .closeS, s, [.statS, .closeS])
    else if o.mkdirClosedOk = false then
      (.error .mkdirClosedS, s, [.statS, .closeS, .mkdirClosedS])
    else if o.renameOk = false then
      (.error .renameS, s, [.statS, .closeS, .mkdirClosedS, .renameS])
    else
      rotateOpenPhase o createNew { s with cur := none, closed := s.closed ++ [seg] }
        [.statS, .closeS, .mkdirClosedS, .renameS]
  | none => rotateOpenPhase o createNew s []

/-- `Rotate(createNew)`: try the non-blocking rotation lock; if it is already
held, return immediately (`nil` error, no action); otherwise run the body and
release the lock on every path (`defer`). -/
def rotateO (o : RotOracle) (createNew : Bool) (s : FWState) :
    RotResult × FWState × List RotStep :=
  if s.rotating = true then (.skipped, s, [])
  else rotateBody o createNew s

/-- The metadata line built by `Write`: the gjson `@join.@ugly` merge of the
caller value with the injected metadata object
`{"__row_id": rid, "__batch_file": nm}`. -/
def mkLine (d : Json) (rid : String) (nm : String) : Json :=
  gjsonJoin [d, .obj [("__row_id", .str rid), ("__batch_file", .str nm)]]

/-- Instrumentation record of one `Write` call: whether the size check
triggered a rotation, the open segment's size at the check, the size and name
of the segment the line was appended into at the moment of the append, and
the persisted line. -/
structure WriteReport where
  rotated : Bool
  sizeBefore : Nat
  targetPre : Nat
  targetName : String
  line : Json

/-- `Write(data)` under the write lock, with all filesystem calls succeeding
(the sequential-run model used for the append-path claims): stat the open
segment; if its size plus `len(data)` exceeds `MaxSizeBytes`, rotate with
`createNew = true` first; then build the metadata, join it with the record,
and append the line to the open segment.  `none` models the error return on a
missing open segment. -/
def write (cfg : Nat) (d : Json) (s : FWState) : Option (FWState × WriteReport) :=
  match s.cur with
  | none => none
  | some seg =>
    let need := decide (cfg < segSize seg + jlen d)
    let s1 := if need then (rotateO allRotOk true s).2.1 else s
    match s1.cur with
    | none => none
    | some seg2 =>
      let rid := ulidMake s1.ulidCtr
      let line := mkLine d rid seg2.name
      some ({ s1 with cur := some ⟨seg2.name, seg2.lines ++ [line]⟩, ulidCtr := s1.ulidCtr + 1 },
        ⟨need, segSize seg, segSize seg2, seg2.name, line⟩)

/-- A sequence of `Write` calls from a starting state (failed calls leave the
state unchanged). -/
def writeSeq (cfg : Nat) (ds : List Json) (s : FWState) : FWState :=
  ds.foldl (fun t d => match write cfg d t with | some (t2, _) => t2 | none => t) s

/-- Events of one tick of `rotateOnTimer`, in program order. -/
inductive TickEv where
  | lockWrite
  | statOpen
  | rotateCall (createNew : Bool)
  | unlockWrite
deriving DecidableEq, Repr

/-- One firing of the rotation timer (`rotateOnTimer` tick body): take the
write lock, stat the open segment, and invoke `Rotate(true)` only when the
segment size is strictly positive; release the write lock.  `none` models a
crash of the tick: a missing open segment or a failed stat both lead to a
dereference of a nil `FileInfo` in the source. -/
def tickBody (o : RotOracle) (s : FWState) : Option (FWState × List TickEv) :=
  match s.cur with
  | none => none
  | some seg =>
    if o.statOk = false then none
    else if 0 < segSize seg then
      some ((rotateO o true s).2.1, [.lockWrite, .statOpen, .rotateCall true, .unlockWrite])
    else some (s, [.lockWrite, .statOpen, .unlockWrite])

/-- Events of `Close`, in program order. -/
inductive CloseEv where
  | tickerStop
  | tickerDoneSig
  | lockWrite
  | finalRotate (createNew : Bool)
  | unlockWrite
  | logRotateErr
  | pusherDoneSig
  | wgWait
deriving DecidableEq, Repr

/-- `Close()`: stop the ticker, signal the scheduler task to exit, run the
final `Rotate(false)` under the write lock, log a rotation error without
propagating it, signal the upload pump to drain, and wait on the task group.
The first component is the value `Close` returns (always the `nil` error). -/
def closeFW (o : RotOracle) (s : FWState) : Option RotStep × FWState × List CloseEv :=
  let r := rotateO o false s
  let mid : List CloseEv := match r.1 with | .error _ => [.logRotateErr] | _ => []
  (none, r.2.1,
    [.tickerStop, .tickerDoneSig, .lockWrite, .finalRotate false, .unlockWrite]
      ++ mid ++ [.pusherDoneSig, .wgWait])

/-- Log lines of `NewFileWriter`. -/
inductive InitEv where
  | logMkdirClosedErr
  | logMkdirOpenErr
deriving DecidableEq, Repr

/-- Failure oracle for `NewFileWriter`: the two `MkdirAll` calls and the
initial `Rotate(true)`. -/
structure InitOracle where
  mkdirClosedOk : Bool
  mkdirOpenOk : Bool
  rot : RotOracle

/-- The all-success constructor oracle. -/
def allInitOk : InitOracle :=
  ⟨true, true, allRotOk⟩

/-- `NewFileWriter`: create the `closed` and `open` directories (errors are
logged and ignored), run the kick-start `Rotate(true)` (its error value is
discarded), launch the two background tasks, and return the writer.  The
constructor has no error result at all. -/
def newFileWriter (o : InitOracle) : FWState × List InitEv :=
  let s0 : FWState := { cur := none, closed := [], rotating := false, ulidCtr := 0 }
  let logs := (if o.mkdirClosedOk then [] else [InitEv.logMkdirClosedErr])
    ++ (if o.mkdirOpenOk then [] else [InitEv.logMkdirOpenErr])
  ((rotateO o.rot true s0).2.1, logs)

/-- The writer state established by a successful `NewFileWriter`. -/
def initWriter : FWState :=
  (newFileWriter allInitOk).1

/-- One entry of the `closed` directory listing, with its `FileInfo` size. -/
structure FileEntry where
  name : String
  size : Nat
deriving DecidableEq, Repr

/-- Outcome oracle, per file name, for the external calls of the upload pump:
`os.Open`, `S3.PutObject`, `SQS.SendMessage`, `os.Remove`. -/
structure PumpEnv where
  openFileOk : String → Bool
  putOk : String → Bool
  sendOk : String → Bool
  removeOk : String → Bool

/-- Configuration the pump reads: the S3 upload prefix, the bucket, the SQS
queue URL, and the static tags attached to every notification. -/
structure PumpCfg where
  uploadDir : String
  bucket : String
  queue : String
  tags : List (String × String)

/-- Externally visible actions of the upload pump. -/
inductive PumpEv where
  | fileOpen (path : String)
  | s3Put (bucket key disposition : String)
  | sqsSend (queue : String) (body : List (String × String))
  | removeF (path : String)
  | logRemoveErr (path : String)
deriving DecidableEq, Repr

/-- Path of a closed segment file relative to the data directory. -/
def closedPath (nm : String) : String :=
  "closed/" ++ nm

/-- Object key for an uploaded segment: upload prefix joined with the file's
base name. -/
def s3KeyOf (cfg : PumpCfg) (nm : String) : String :=
  cfg.uploadDir ++ "/" ++ nm

/-- Body of the SQS notification: the static tags plus the bucket and the
object key (the Go map serialized as a list of key/value pairs). -/
def sqsBody (cfg : PumpCfg) (nm : String) : List (String × String) :=
  cfg.tags ++ [("bucket", cfg.bucket), ("key", s3KeyOf cfg nm)]

/-- `uploadS3File(filename)`: open the local file, `PutObject` it under the
upload key with content-disposition `attachment`, then `SendMessage` the
notification.  Returns whether every call succeeded, with the trace of the
calls made; the first failure ends the function. -/
def uploadS3File (env : PumpEnv) (cfg : PumpCfg) (nm : String) : Bool × List PumpEv :=
  if env.openFileOk nm = false then (false, [.fileOpen (closedPath nm)])
  else if env.putOk nm = false then
    (false, [.fileOpen (closedPath nm), .s3Put cfg.bucket (s3KeyOf cfg nm) "attachment"])
  else if env.sendOk nm = false then
    (false, [.fileOpen (closedPath nm), .s3Put cfg.bucket (s3KeyOf cfg nm) "attachment",
      .sqsSend cfg.queue (sqsBody cfg nm)])
  else
    (true, [.fileOpen (closedPath nm), .s3Put cfg.bucket (s3KeyOf cfg nm) "attachment",
      .sqsSend cfg.queue (sqsBody cfg nm)])

/-- Fate of one directory entry in a pump iteration. -/
inductive EntryOut where
  | removed
  | keptRemoveFailed
  | fatal
deriving DecidableEq, Repr

/-- The per-entry body of the `pushFiles` loop: upload the file only when it
is non-empty; when the upload error is `nil` (including the empty-file case)
remove the local file, logging a failed remove; otherwise `log.Fatal`
terminates the process. -/
def processEntry (env : PumpEnv) (cfg : PumpCfg) (e : FileEntry) : EntryOut × List PumpEv :=
  if 0 < e.size then
    let u := uploadS3File env cfg e.name
    if u.1 then
      if env.removeOk e.name then (.removed, u.2 ++ [.removeF (closedPath e.name)])
      else (.keptRemoveFailed, u.2 ++ [.removeF (closedPath e.name), .logRemoveErr (closedPath e.name)])
    else (.fatal, u.2)
  else
    if env.removeOk e.name then (.removed, [.removeF (closedPath e.name)])
    else (.keptRemoveFailed, [.removeF (closedPath e.name), .logRemoveErr (closedPath e.name)])

/-- Result of one scan of the `closed` directory: whether the process was
killed by `log.Fatal`, the trace of external actions, and the entries still
on disk afterwards. -/
structure IterOut where
  fatal : Bool
  trace : List PumpEv
  remaining : List FileEntry
deriving DecidableEq, Repr

/-- One iteration of the `pushFiles` loop over the directory listing, in
listing order.  A fatal entry kills the process: it and every later entry
stay on disk unprocessed. -/
def pushIter (env : PumpEnv) (cfg : PumpCfg) : List FileEntry → IterOut
  | [] => ⟨false, [], []⟩
  | e :: es =>
    match processEntry env cfg e with
    | (.removed, tr) =>
      let r := pushIter env cfg es
      ⟨r.fatal, tr ++ r.trace, r.remaining⟩
    | (.keptRemoveFailed, tr) =>
      let r := pushIter env cfg es
      ⟨r.fatal, tr ++ r.trace, e :: r.remaining⟩
    | (.fatal, tr) => ⟨true, tr, e :: es⟩

/-- Value of the `__row_id` metadata field of a persisted line. -/
def lineRowId : Json → Option Json
  | .obj fs => lookupField fs "__row_id"
  | _ => none

/-- Value of the `__batch_file` metadata field of a persisted line. -/
def lineBatchFile : Json → Option Json
  | .obj fs => lookupField fs "__batch_file"
  | _ => none

/-- Modelled from the spec (for comparison with the source behavior): the
specification's stated shape of a persisted line, a two-element JSON array of
the caller-supplied value and a metadata object. -/
def specTwoElemLine (caller l : Json) : Prop :=
  ∃ meta, l = Json.arr [caller, meta]

/-- The caller record of the concrete counterexample run. -/
def cexData : Json :=
  Json.obj [("a", Json.num 1)]

/-- The line persisted by the first `Write` of `cexData` on a fresh writer
with a 100-byte segment limit. -/
def cexLine : Json :=
  match write 100 cexData initWriter with
  | some (_, r) => r.line
  | none => Json.null

/-- Row-id uniqueness invariant of a writer state: every persisted line
carries a `__row_id` drawn from an already-consumed ULID counter value, and
all lines carry pairwise distinct `__row_id`s. -/
def RowIdInv (s : FWState) : Prop :=
  (∀ l ∈ allLines s, ∃ k, k < s.ulidCtr ∧ lineRowId l = some (.str (ulidMake k))) ∧
    (allLines s).Pairwise fun a b => lineRowId a ≠ lineRowId b

/-- Sample: an empty (zero-byte) open segment. -/
def segEmptyA : Segment :=
  ⟨"A.ndjson", []⟩

/-- Sample: a non-empty open segment. -/
def segOneB : Segment :=
  ⟨"B.ndjson", [Json.null]⟩

/-- Sample writer state whose rotation lock is held. -/
def wsLocked : FWState :=
  ⟨none, [], true, 0⟩

/-- Sample writer state with an empty open segment and a free rotation
lock. -/
def wsOpenA : FWState :=
  ⟨some segEmptyA, [], false, 7⟩

/-- Sample writer state with a non-empty open segment and a free rotation
lock. -/
def wsOpenB : FWState :=
  ⟨some segOneB, [], false, 3⟩

/-- Sample rotation oracle whose `fd.Close()` call fails. -/
def oCloseFail : RotOracle :=
  ⟨true, false, true, true, true, true⟩

/-- Sample pump environment in which every external call succeeds. -/
def allPumpOk : PumpEnv :=
  ⟨fun _ => true, fun _ => true, fun _ => true, fun _ => true⟩

/-- Sample pump environment in which `PutObject` fails for every file. -/
def putFails : PumpEnv :=
  ⟨fun _ => true, fun _ => false, fun _ => true, fun _ => true⟩

/-- Sample pump configuration. -/
def cfgSample : PumpCfg :=
  ⟨"up", "bkt", "queue", [("tbl", "t1")]⟩

/-- Sample non-empty closed-directory entry. -/
def entryNE : FileEntry :=
  ⟨"E.ndjson", 3⟩

/-- Sample zero-byte closed-directory entry. -/
def entryZero : FileEntry :=
  ⟨"Z.ndjson", 0⟩

theorem lookupField_mapSet_other (acc : List (String × Json)) (k k2 : String) (v : Json)
    (hne : k2 ≠ k) :
    lookupField (acc.map fun p => if p.1 = k then (p.1, v) else p) k2 = lookupField acc k2 := by
  induction acc with
  | nil => simp [lookupField]
  | cons p rest ih =>
    by_cases hp : p.1 = k2
    · have hpk : ¬ p.1 = k := fun h => hne (hp.symm.trans h)
      simp [lookupField, hp, hpk, hne]
    · by_cases hpk : p.1 = k
      · simp [lookupField, hp, hpk, ih, Ne.symm hne]
      · simp [lookupField, hp, hpk, ih]

theorem lookupField_append_other (acc : List (String × Json)) (k k2 : String) (v : Json)
    (hne : k2 ≠ k) :
    lookupField (acc ++ [(k, v)]) k2 = lookupField acc k2 := by
  induction acc with
  | nil => simp [lookupField, Ne.symm hne]
  | cons p rest ih =>
    by_cases hp : p.1 = k2
    · simp [lookupField, hp]
    · simp [lookupField, hp, ih]

theorem lookupField_mapSet_self (acc : List (String × Json)) (k : String) (v : Json)
    (hany : acc.any (fun p => decide (p.1 = k)) = true) :
    lookupField (acc.map fun p => if p.1 = k then (p.1, v) else p) k = some v := by
  induction acc with
  | nil => simp at hany
  | cons p rest ih =>
    by_cases hp : p.1 = k
    · simp [lookupField, hp]
    · have hrest : rest.any (fun p => decide (p.1 = k)) = true := by
        simp [List.any_cons, hp] at hany
        simpa using hany
      simp [lookupField, hp, ih hrest]

theorem lookupField_append_self (acc : List (String × Json)) (k : String) (v : Json)
    (hany : acc.any (fun p => decide (p.1 = k)) = false) :
    lookupField (acc ++ [(k, v)]) k = some v := by
  induction acc with
  | nil => simp [lookupField]
  | cons p rest ih =>
    simp [List.any_cons] at hany
    simp [lookupField, hany.1, ih (by simpa using hany.2)]

theorem lookupField_joinInsert_self (acc : List (String × Json)) (k : String) (v : Json) :
    lookupField (joinInsert acc k v) k = some v := by
  unfold joinInsert
  by_cases hany : acc.any (fun p => decide (p.1 = k)) = true
  · simp [hany, lookupField_mapSet_self acc k v hany]
  · simp only [Bool.not_eq_true] at hany
    simp [hany, lookupField_append_self acc k v hany]

theorem lookupField_joinInsert_other (acc : List (String × Json)) (k k2 : String) (v : Json)
    (hne : k2 ≠ k) :
    lookupField (joinInsert acc k v) k2 = lookupField acc k2 := by
  unfold joinInsert
  by_cases hany : acc.any (fun p => decide (p.1 = k)) = true
  · simp [hany, lookupField_mapSet_other acc k k2 v hne]
  · simp only [Bool.not_eq_true] at hany
    simp [hany, lookupField_append_other acc k k2 v hne]

theorem mkLine_fields (d : Json) (rid nm : String) :
    mkLine d rid nm =
      Json.obj (joinInsert (joinInsert (joinObjInto [] d) "__row_id" (.str rid))
        "__batch_file" (.str nm)) := by
  simp [mkLine, gjsonJoin, joinObjInto]

theorem lineRowId_mkLine (d : Json) (rid nm : String) :
    lineRowId (mkLine d rid nm) = some (.str rid) := by
  rw [mkLine_fields]
  simp only [lineRowId]
  rw [lookupField_joinInsert_other _ _ _ _ (by decide)]
  exact lookupField_joinInsert_self _ _ _

theorem lineBatchFile_mkLine (d : Json) (rid nm : String) :
    lineBatchFile (mkLine d rid nm) = some (.str nm) := by
  rw [mkLine_fields]
  simp only [lineBatchFile]
  exact lookupField_joinInsert_self _ _ _

theorem ulidMake_inj {a b : Nat} (h : ulidMake a = ulidMake b) : a = b := by
  have h2 : List.replicate (a + 1) 'u' = List.replicate (b + 1) 'u' := congrArg String.data h
  have h3 := congrArg List.length h2
  simp at h3
  exact h3

theorem ulidMake_ne_empty (n : Nat) : ulidMake n ≠ "" := by
  intro h
  have h2 : List.replicate (n + 1) 'u' = [] := congrArg String.data h
  simp [List.replicate] at h2

theorem closedLines_append (a b : List Segment) :
    closedLines (a ++ b) = closedLines a ++ closedLines b := by
  induction a with
  | nil => simp [closedLines]
  | cons s rest ih => simp [closedLines, ih]


theorem write_no_rotate (cfg : Nat) (d : Json) (s : FWState) (seg : Segment)
    (hc : s.cur = some seg) (hle : segSize seg + jlen d ≤ cfg) :
    write cfg d s = some
      ({ s with
          cur := some ⟨seg.name, seg.lines ++ [mkLine d (ulidMake s.ulidCtr) seg.name]⟩,
          ulidCtr := s.ulidCtr + 1 },
       ⟨false, segSize seg, segSize seg, seg.name, mkLine d (ulidMake s.ulidCtr) seg.name⟩) := by
  simp [write, hc, Nat.not_lt.mpr hle]

theorem write_rotate (cfg : Nat) (d : Json) (s : FWState) (seg : Segment)
    (hc : s.cur = some seg) (hr : s.rotating = false)
    (hgt : cfg < segSize seg + jlen d) :
    write cfg d s = some
      (⟨some ⟨ulidMake s.ulidCtr ++ ".ndjson",
          [mkLine d (ulidMake (s.ulidCtr + 1)) (ulidMake s.ulidCtr ++ ".ndjson")]⟩,
        s.closed ++ [seg], false, s.ulidCtr + 2⟩,
       ⟨true, segSize seg, 0, ulidMake s.ulidCtr ++ ".ndjson",
        mkLine d (ulidMake (s.ulidCtr + 1)) (ulidMake s.ulidCtr ++ ".ndjson")⟩) := by
  simp only [write, hc]
  rw [if_pos (by simpa using hgt)]
  simp [rotateO, hr, rotateBody, hc, rotateOpenPhase, allRotOk, segSize, hgt]
  simpa [segSize] using hgt

theorem rowIdInv_extend (old : List Json) (c c2 k : Nat) (line : Json)
    (hold : ∀ l ∈ old, ∃ j, j < c ∧ lineRowId l = some (.str (ulidMake j)))
    (hpw : old.Pairwise fun a b => lineRowId a ≠ lineRowId b)
    (hline : lineRowId line = some (.str (ulidMake k)))
    (hck : c ≤ k) (hk2 : k < c2) :
    (∀ l ∈ old ++ [line], ∃ j, j < c2 ∧ lineRowId l = some (.str (ulidMake j))) ∧
      (old ++ [line]).Pairwise fun a b => lineRowId a ≠ lineRowId b := by
  constructor
  · intro l hl
    rcases List.mem_append.mp hl with h | h
    · obtain ⟨j, hj, hrj⟩ := hold l h
      exact ⟨j, by omega, hrj⟩
    · simp at h
      subst h
      exact ⟨k, hk2, hline⟩
  · rw [List.pairwise_append]
    refine ⟨hpw, List.pairwise_singleton _ _, ?_⟩
    intro a ha b hb
    simp at hb
    subst hb
    obtain ⟨j, hj, hra⟩ := hold a ha
    rw [hra, hline]
    simp only [ne_eq, Option.some.injEq, Json.str.injEq]
    intro hEq
    have := ulidMake_inj hEq
    omega

theorem write_master (cfg : Nat) (d : Json) (s : FWState) (seg : Segment)
    (hc : s.cur = some seg) (hr : s.rotating = false) (hinv : RowIdInv s) :
    ∃ s2 rep k, write cfg d s = some (s2, rep) ∧
      s2.rotating = false ∧
      (∃ seg2, s2.cur = some seg2 ∧ seg2.name = rep.targetName ∧
        seg2.lines.getLast? = some rep.line) ∧
      RowIdInv s2 ∧
      allLines s2 = allLines s ++ [rep.line] ∧
      rep.line = mkLine d (ulidMake k) rep.targetName ∧
      s.ulidCtr ≤ k ∧ k < s2.ulidCtr ∧
      rep.rotated = decide (cfg < segSize seg + jlen d) ∧
      rep.sizeBefore = segSize seg ∧
      (rep.rotated = true → rep.targetPre = 0) ∧
      (rep.rotated = false → rep.targetPre = segSize seg) := by
  by_cases hgt : cfg < segSize seg + jlen d
  · have hall2 : allLines ⟨some ⟨ulidMake s.ulidCtr ++ ".ndjson",
        [mkLine d (ulidMake (s.ulidCtr + 1)) (ulidMake s.ulidCtr ++ ".ndjson")]⟩,
        s.closed ++ [seg], false, s.ulidCtr + 2⟩ =
        allLines s ++ [mkLine d (ulidMake (s.ulidCtr + 1)) (ulidMake s.ulidCtr ++ ".ndjson")] := by
      simp [allLines, closedLines_append, closedLines, hc]
    have hinv2 := rowIdInv_extend (allLines s) s.ulidCtr (s.ulidCtr + 2) (s.ulidCtr + 1)
      (mkLine d (ulidMake (s.ulidCtr + 1)) (ulidMake s.ulidCtr ++ ".ndjson"))
      hinv.1 hinv.2 (lineRowId_mkLine _ _ _) (by omega) (by omega)
    refine ⟨_, _, s.ulidCtr + 1, write_rotate cfg d s seg hc hr hgt,
      rfl, ⟨_, rfl, rfl, by simp⟩, ?_, hall2, rfl, by omega, Nat.lt_succ_self _, by simp [hgt], rfl,
      fun _ => rfl, fun h => by simp at h⟩
    constructor
    · intro l hl
      rw [hall2] at hl
      exact hinv2.1 l hl
    · show List.Pairwise _ (allLines _)
      rw [hall2]
      exact hinv2.2
  · have hle : segSize seg + jlen d ≤ cfg := Nat.not_lt.mp hgt
    have hall2 : allLines { s with
        cur := some ⟨seg.name, seg.lines ++ [mkLine d (ulidMake s.ulidCtr) seg.name]⟩,
        ulidCtr := s.ulidCtr + 1 } =
        allLines s ++ [mkLine d (ulidMake s.ulidCtr) seg.name] := by
      simp [allLines, hc]
    have hinv2 := rowIdInv_extend (allLines s) s.ulidCtr (s.ulidCtr + 1) s.ulidCtr
      (mkLine d (ulidMake s.ulidCtr) seg.name)
      hinv.1 hinv.2 (lineRowId_mkLine _ _ _) (by omega) (by omega)
    refine ⟨_, _, s.ulidCtr, write_no_rotate cfg d s seg hc hle,
      hr, ⟨_, rfl, rfl, by simp⟩, ?_, hall2, rfl, by omega, Nat.lt_succ_self _, by simp [hgt], rfl,
      fun h => by simp at h, fun _ => rfl⟩
    constructor
    · intro l hl
      rw [hall2] at hl
      exact hinv2.1 l hl
    · show List.Pairwise _ (allLines _)
      rw [hall2]
      exact hinv2.2

theorem initWriter_inv :
    (∃ seg, initWriter.cur = some seg) ∧ initWriter.rotating = false ∧ RowIdInv initWriter := by
  refine ⟨⟨⟨ulidMake 0 ++ ".ndjson", []⟩, rfl⟩, rfl, ?_, ?_⟩
  · intro l hl
    rw [show allLines initWriter = [] from rfl] at hl
    simp at hl
  · rw [show allLines initWriter = [] from rfl]
    exact List.Pairwise.nil

theorem writeSeq_inv (cfg : Nat) (ds : List Json) :
    ∀ s : FWState, (∃ seg, s.cur = some seg) → s.rotating = false → RowIdInv s →
      (∃ seg, (writeSeq cfg ds s).cur = some seg) ∧ (writeSeq cfg ds s).rotating = false ∧
        RowIdInv (writeSeq cfg ds s) := by
  induction ds with
  | nil =>
    intro s h1 h2 h3
    simpa [writeSeq] using ⟨h1, h2, h3⟩
  | cons d rest ih =>
    rintro s ⟨seg, hc⟩ hr hinv
    obtain ⟨s2, rep, k, hw, hrot2, hcur2, hinv2, _⟩ := write_master cfg d s seg hc hr hinv
    have hws : writeSeq cfg (d :: rest) s = writeSeq cfg rest s2 := by
      simp [writeSeq, hw]
    rw [hws]
    obtain ⟨seg2, hcs2, _, _⟩ := hcur2
    exact ih s2 ⟨seg2, hcs2⟩ hrot2 hinv2

/-- C1: over any sequence of `Write` calls on one writer, `Write` compares the
open segment's size plus the record length against `MaxSizeBytes` before
writing and rotates first exactly when the sum would exceed it, so the
segment a record is accepted into never exceeds the threshold at that
moment. -/
theorem write_size_threshold (cfg : Nat) (ds : List Json) (d : Json) :
    ∃ s2 rep, write cfg d (writeSeq cfg ds initWriter) = some (s2, rep) ∧
      rep.rotated = decide (cfg < rep.sizeBefore + jlen d) ∧
      (rep.rotated = false → rep.targetPre = rep.sizeBefore ∧ rep.sizeBefore + jlen d ≤ cfg) ∧
      (rep.rotated = true → rep.targetPre = 0) ∧
      rep.targetPre ≤ cfg := by
  obtain ⟨hcur, hrot, hinv⟩ := writeSeq_inv cfg ds initWriter initWriter_inv.1
    initWriter_inv.2.1 initWriter_inv.2.2
  obtain ⟨seg, hc⟩ := hcur
  obtain ⟨s2, rep, k, hw, _, _, _, _, _, _, _, hrotEq, hsizeEq, hpre0, hpreEq⟩ :=
    write_master cfg d _ seg hc hrot hinv
  refine ⟨s2, rep, hw, ?_, ?_, hpre0, ?_⟩
  · rw [hrotEq, hsizeEq]
  · intro hfalse
    have hnot : ¬ (cfg < segSize seg + jlen d) := by
      rw [hrotEq] at hfalse
      exact of_decide_eq_false hfalse
    refine ⟨by rw [hpreEq hfalse, hsizeEq], ?_⟩
    rw [hsizeEq]
    omega
  · by_cases hb : rep.rotated = true
    · rw [hpre0 hb]
      exact Nat.zero_le cfg
    · have hb2 : rep.rotated = false := by
        revert hb
        cases rep.rotated <;> simp
      have hnot : ¬ (cfg < segSize seg + jlen d) := by
        rw [hrotEq] at hb2
        exact of_decide_eq_false hb2
      rw [hpreEq hb2]
      omega

/-- C2 (amended): every line a successful `Write` persists is the single JSON
object produced by gjson's `@join` of the caller value and the injected
metadata object (not a two-element array); its `__row_id` is a non-empty
identifier unique across all lines written by the instance, and its
`__batch_file` equals the name of the segment that physically contains the
line. -/
theorem write_line_metadata (cfg : Nat) (ds : List Json) (d : Json) :
    ∃ s2 rep, write cfg d (writeSeq cfg ds initWriter) = some (s2, rep) ∧
      ∃ rid seg2,
        rep.line = mkLine d rid rep.targetName ∧
        rid ≠ "" ∧
        lineRowId rep.line = some (.str rid) ∧
        lineBatchFile rep.line = some (.str rep.targetName) ∧
        s2.cur = some seg2 ∧ seg2.name = rep.targetName ∧
        seg2.lines.getLast? = some rep.line ∧
        (allLines s2).Pairwise (fun a b => lineRowId a ≠ lineRowId b) := by
  obtain ⟨hcur, hrot, hinv⟩ := writeSeq_inv cfg ds initWriter initWriter_inv.1
    initWriter_inv.2.1 initWriter_inv.2.2
  obtain ⟨seg, hc⟩ := hcur
  obtain ⟨s2, rep, k, hw, _, hcur2, hinv2, _, hline, _⟩ :=
    write_master cfg d _ seg hc hrot hinv
  obtain ⟨seg2, hcs2, hname, hlast⟩ := hcur2
  refine ⟨s2, rep, hw, ulidMake k, seg2, hline, ulidMake_ne_empty k, ?_, ?_, hcs2, hname,
    hlast, hinv2.2⟩
  · rw [hline]
    exact lineRowId_mkLine _ _ _
  · rw [hline]
    exact lineBatchFile_mkLine _ _ _

/-- C2 (counterexample): the claim that a persisted line is a two-element
JSON array `[caller value, metadata]` fails on the very first `Write` of the
record `{"a": 1}`: the line actually persisted is the single merged object
`{"a": 1, "__row_id": ..., "__batch_file": ...}`. -/
theorem write_line_not_two_elem_array :
    (write 100 cexData initWriter).isSome = true ∧ ¬ specTwoElemLine cexData cexLine := by
  refine ⟨rfl, ?_⟩
  rintro ⟨meta, h⟩
  rw [show cexLine = Json.obj [("a", Json.num 1), ("__row_id", Json.str (ulidMake 1)),
    ("__batch_file", Json.str (ulidMake 0 ++ ".ndjson"))] from rfl] at h
  exact Json.noConfusion h

/-- C4: a `Rotate` call that finds the rotation lock held returns immediately
with the skipped outcome (`nil` error), performing no filesystem step and
leaving the writer state unchanged; under concurrent rotation triggers only
the lock holder's call performs the filesystem mutation. -/
theorem rotate_skip_contention (o o2 : RotOracle) (c c2 : Bool) (s t : FWState) (seg : Segment)
    (h : s.rotating = true) (ht : t.rotating = false) (hseg : t.cur = some seg) :
    rotateO o c s = (.skipped, s, []) ∧
    rotateO o2 c2 { t with rotating := true } = (.skipped, { t with rotating := true }, []) ∧
    (rotateO allRotOk c2 t).2.1.closed = t.closed ++ [seg] ∧
    (rotateO allRotOk c2 t).2.2 ≠ [] := by
  refine ⟨by simp [rotateO, h], by simp [rotateO], ?_, ?_⟩
  · cases c2 <;> simp [rotateO, ht, rotateBody, hseg, allRotOk, rotateOpenPhase]
  · cases c2 <;> simp [rotateO, ht, rotateBody, hseg, allRotOk, rotateOpenPhase]

theorem rotate_skip_contention_witness :
    wsLocked.rotating = true ∧ wsOpenA.rotating = false ∧ wsOpenA.cur = some segEmptyA ∧
    (rotateO allRotOk true wsLocked = (.skipped, wsLocked, []) ∧
     rotateO allRotOk false { wsOpenA with rotating := true } =
       (.skipped, { wsOpenA with rotating := true }, []) ∧
     (rotateO allRotOk false wsOpenA).2.1.closed = wsOpenA.closed ++ [segEmptyA] ∧
     (rotateO allRotOk false wsOpenA).2.2 ≠ []) :=
  ⟨rfl, rfl, rfl,
   rotate_skip_contention allRotOk allRotOk true false wsLocked wsOpenA segEmptyA rfl rfl rfl⟩

/-- C7: when `Rotate` acquires the lock and an open segment exists, the
segment is renamed into the closed directory under its unchanged base name
with no size check at all — in particular a zero-byte segment is rotated. -/
theorem rotate_zero_byte_segment (c : Bool) (s : FWState) (seg : Segment)
    (h1 : s.rotating = false) (h2 : s.cur = some seg) :
    (rotateO allRotOk c s).1 = .ok ∧
    (rotateO allRotOk c s).2.1.closed = s.closed ++ [seg] := by
  cases c <;> simp [rotateO, h1, rotateBody, h2, allRotOk, rotateOpenPhase]

theorem rotate_zero_byte_segment_witness :
    segSize segEmptyA = 0 ∧ wsOpenA.rotating = false ∧ wsOpenA.cur = some segEmptyA ∧
    ((rotateO allRotOk true wsOpenA).1 = .ok ∧
     (rotateO allRotOk true wsOpenA).2.1.closed = wsOpenA.closed ++ [segEmptyA]) :=
  ⟨rfl, rfl, rfl, rotate_zero_byte_segment true wsOpenA segEmptyA rfl rfl⟩

/-- C8: any filesystem error in `Rotate` aborts the remaining steps and is
returned to the caller: the failing step is the last one attempted, an error
path never installs a fresh open segment, and in particular when closing the
old segment fails, no new segment file is opened even with `createNew`. -/
theorem rotate_error_aborts (o : RotOracle) (c : Bool) (s : FWState) (st : RotStep)
    (hrot : s.rotating = false) (herr : (rotateO o c s).1 = .error st) :
    (rotateO o c s).2.2.getLast? = some st ∧
    ((rotateO o c s).2.1.cur = s.cur ∨ (rotateO o c s).2.1.cur = none) ∧
    (st ≠ .openS → RotStep.openS ∉ (rotateO o c s).2.2) ∧
    (∀ seg, s.cur = some seg → o.statOk = true → o.closeOk = false →
      rotateO o c s = (.error .closeS, s, [.statS, .closeS])) := by
  rcases hc : s.cur with _ | seg <;>
    rcases h1 : o.statOk with _ | _ <;>
    rcases h2 : o.closeOk with _ | _ <;>
    rcases h3 : o.mkdirClosedOk with _ | _ <;>
    rcases h4 : o.renameOk with _ | _ <;>
    rcases h5 : o.mkdirOpenOk with _ | _ <;>
    rcases h6 : o.openOk with _ | _ <;>
    cases c <;>
    simp_all [rotateO, rotateBody, rotateOpenPhase] <;>
    exact fun hne h2 => hne h2.symm

theorem rotate_error_aborts_witness :
    wsOpenA.rotating = false ∧ (rotateO oCloseFail true wsOpenA).1 = .error .closeS ∧
    ((rotateO oCloseFail true wsOpenA).2.2.getLast? = some RotStep.closeS ∧
     ((rotateO oCloseFail true wsOpenA).2.1.cur = wsOpenA.cur ∨
      (rotateO oCloseFail true wsOpenA).2.1.cur = none) ∧
     (RotStep.closeS ≠ RotStep.openS →
       RotStep.openS ∉ (rotateO oCloseFail true wsOpenA).2.2) ∧
     (∀ seg, wsOpenA.cur = some seg → oCloseFail.statOk = true → oCloseFail.closeOk = false →
       rotateO oCloseFail true wsOpenA = (.error .closeS, wsOpenA, [.statS, .closeS]))) :=
  ⟨rfl, rfl, rotate_error_aborts oCloseFail true wsOpenA .closeS rfl rfl⟩

/-- C5: a scheduler tick takes the write lock, stats the open segment, and
invokes rotation with `createNew = true` only when the segment is non-empty;
an empty open segment is never rotated by the timer. -/
theorem timer_rotates_only_nonempty (o : RotOracle) (s : FWState) (seg : Segment)
    (hc : s.cur = some seg) (hst : o.statOk = true) :
    (segSize seg = 0 → tickBody o s = some (s, [.lockWrite, .statOpen, .unlockWrite])) ∧
    (0 < segSize seg → tickBody o s =
      some ((rotateO o true s).2.1, [.lockWrite, .statOpen, .rotateCall true, .unlockWrite])) := by
  constructor
  · intro h
    simp [tickBody, hc, hst, h]
  · intro h
    simp [tickBody, hc, hst, h]

theorem timer_rotates_only_nonempty_witness :
    wsOpenA.cur = some segEmptyA ∧ wsOpenB.cur = some segOneB ∧ allRotOk.statOk = true ∧
    segSize segEmptyA = 0 ∧ 0 < segSize segOneB ∧
    ((segSize segEmptyA = 0 → tickBody allRotOk wsOpenA =
        some (wsOpenA, [.lockWrite, .statOpen, .unlockWrite])) ∧
     (0 < segSize segEmptyA → tickBody allRotOk wsOpenA =
        some ((rotateO allRotOk true wsOpenA).2.1,
          [.lockWrite, .statOpen, .rotateCall true, .unlockWrite]))) ∧
    ((segSize segOneB = 0 → tickBody allRotOk wsOpenB =
        some (wsOpenB, [.lockWrite, .statOpen, .unlockWrite])) ∧
     (0 < segSize segOneB → tickBody allRotOk wsOpenB =
        some ((rotateO allRotOk true wsOpenB).2.1,
          [.lockWrite, .statOpen, .rotateCall true, .unlockWrite]))) :=
  ⟨rfl, rfl, rfl, rfl, by decide,
   timer_rotates_only_nonempty allRotOk wsOpenA segEmptyA rfl rfl,
   timer_rotates_only_nonempty allRotOk wsOpenB segOneB rfl rfl⟩

/-- C6: `Close` stops the ticker, signals the scheduler task, performs the
final rotation with `createNew = false` under the write lock, logs a failed
final rotation without propagating it, signals the pump to drain, then waits
for both background tasks; it always returns the `nil` error. -/
theorem close_order_error_policy (o : RotOracle) (s : FWState) :
    (closeFW o s).1 = none ∧
    (closeFW o s).2.1 = (rotateO o false s).2.1 ∧
    ∃ mid, (closeFW o s).2.2 =
        [.tickerStop, .tickerDoneSig, .lockWrite, .finalRotate false, .unlockWrite]
          ++ mid ++ [.pusherDoneSig, .wgWait] ∧
      (mid = [] ∨ mid = [CloseEv.logRotateErr]) ∧
      (mid = [CloseEv.logRotateErr] ↔ ∃ st, (rotateO o false s).1 = .error st) := by
  refine ⟨rfl, rfl, ?_⟩
  rcases hr : (rotateO o false s).1 with _ | _ | st
  · exact ⟨[], by simp [closeFW, hr], Or.inl rfl, by simp [hr]⟩
  · exact ⟨[], by simp [closeFW, hr], Or.inl rfl, by simp [hr]⟩
  · exact ⟨[CloseEv.logRotateErr], by simp [closeFW, hr], Or.inr rfl, by simp [hr]⟩

/-- C10: `NewFileWriter` always returns a writer instance: directory-creation
failures and a failed kick-start rotation appear only in the log, never as a
returned error — after a failed initial rotation the writer simply has no
open segment. -/
theorem constructor_never_fails (o : InitOracle) :
    (newFileWriter o).1.rotating = false ∧
    (newFileWriter o).1.closed = [] ∧
    ((newFileWriter o).1.cur.isSome = true ↔
      (o.rot.mkdirOpenOk = true ∧ o.rot.openOk = true)) ∧
    (InitEv.logMkdirClosedErr ∈ (newFileWriter o).2 ↔ o.mkdirClosedOk = false) ∧
    (InitEv.logMkdirOpenErr ∈ (newFileWriter o).2 ↔ o.mkdirOpenOk = false) := by
  rcases h1 : o.mkdirClosedOk with _ | _ <;>
    rcases h2 : o.mkdirOpenOk with _ | _ <;>
    rcases h3 : o.rot.mkdirOpenOk with _ | _ <;>
    rcases h4 : o.rot.openOk with _ | _ <;>
    simp_all [newFileWriter, rotateO, rotateBody, rotateOpenPhase]

theorem pushIter_append (env : PumpEnv) (cfg : PumpCfg) (xs ys : List FileEntry)
    (h : (pushIter env cfg xs).fatal = false) :
    pushIter env cfg (xs ++ ys) =
      ⟨(pushIter env cfg ys).fatal,
       (pushIter env cfg xs).trace ++ (pushIter env cfg ys).trace,
       (pushIter env cfg xs).remaining ++ (pushIter env cfg ys).remaining⟩ := by
  induction xs with
  | nil => simp [pushIter]
  | cons e es ih =>
    rcases hp : processEntry env cfg e with ⟨out, tr⟩
    rcases out with _ | _ | _
    · have h2 : (pushIter env cfg es).fatal = false := by
        simpa [pushIter, hp] using h
      simp [pushIter, hp, ih h2]
    · have h2 : (pushIter env cfg es).fatal = false := by
        simpa [pushIter, hp] using h
      simp [pushIter, hp, ih h2]
    · exfalso
      simp [pushIter, hp] at h

/-- C3: for a non-empty file the pump reaches in one iteration, the file is
uploaded under `<uploadDirectory>/<basename>` with content-disposition
`attachment` and the queue notification is then sent; the local file is
deleted exactly when upload, notification and the remove call succeed, and
if upload or notification fails the file stays in place and `log.Fatal`
kills the process, leaving every later entry unprocessed. -/
theorem pump_nonempty_file (env : PumpEnv) (cfg : PumpCfg) (pre post : List FileEntry)
    (e : FileEntry) (hpre : (pushIter env cfg pre).fatal = false) (hsz : 0 < e.size) :
    ((env.openFileOk e.name && env.putOk e.name && env.sendOk e.name) = true →
      pushIter env cfg (pre ++ e :: post) =
        ⟨(pushIter env cfg post).fatal,
         (pushIter env cfg pre).trace
           ++ ([.fileOpen (closedPath e.name),
                .s3Put cfg.bucket (s3KeyOf cfg e.name) "attachment",
                .sqsSend cfg.queue (sqsBody cfg e.name)]
              ++ (if env.removeOk e.name then [PumpEv.removeF (closedPath e.name)]
                  else [PumpEv.removeF (closedPath e.name),
                        PumpEv.logRemoveErr (closedPath e.name)]))
           ++ (pushIter env cfg post).trace,
         (pushIter env cfg pre).remaining
           ++ (if env.removeOk e.name then [] else [e])
           ++ (pushIter env cfg post).remaining⟩) ∧
    ((env.openFileOk e.name && env.putOk e.name && env.sendOk e.name) = false →
      (pushIter env cfg (pre ++ e :: post)).fatal = true ∧
      e ∈ (pushIter env cfg (pre ++ e :: post)).remaining ∧
      (pushIter env cfg (pre ++ e :: post)).remaining =
        (pushIter env cfg pre).remaining ++ (e :: post) ∧
      (pushIter env cfg (pre ++ e :: post)).trace =
        (pushIter env cfg pre).trace ++ (uploadS3File env cfg e.name).2) := by
  have hsplit := pushIter_append env cfg pre (e :: post) hpre
  constructor
  · intro hU
    simp only [Bool.and_eq_true] at hU
    obtain ⟨⟨ho, hp2⟩, hs2⟩ := hU
    have hu : uploadS3File env cfg e.name =
        (true, [.fileOpen (closedPath e.name),
          .s3Put cfg.bucket (s3KeyOf cfg e.name) "attachment",
          .sqsSend cfg.queue (sqsBody cfg e.name)]) := by
      simp [uploadS3File, ho, hp2, hs2]
    rw [hsplit]
    rcases hrm : env.removeOk e.name with _ | _
    · simp [pushIter, processEntry, hsz, hu, hrm, List.append_assoc]
    · simp [pushIter, processEntry, hsz, hu, hrm, List.append_assoc]
  · intro hU
    have hfail : (uploadS3File env cfg e.name).1 = false := by
      rcases ho : env.openFileOk e.name with _ | _
      · simp [uploadS3File, ho]
      · rcases hp2 : env.putOk e.name with _ | _
        · simp [uploadS3File, ho, hp2]
        · rcases hs2 : env.sendOk e.name with _ | _
          · simp [uploadS3File, ho, hp2, hs2]
          · simp [ho, hp2, hs2] at hU
    have hpe : processEntry env cfg e = (.fatal, (uploadS3File env cfg e.name).2) := by
      rcases hu2 : uploadS3File env cfg e.name with ⟨b, tr⟩
      have hb : b = false := by
        rw [hu2] at hfail
        exact hfail
      subst hb
      simp [processEntry, hsz, hu2]
    rw [hsplit]
    refine ⟨by simp [pushIter, hpe], by simp [pushIter, hpe], by simp [pushIter, hpe],
      by simp [pushIter, hpe]⟩

theorem pump_nonempty_file_witness :
    (pushIter allPumpOk cfgSample []).fatal = false ∧ 0 < entryNE.size ∧
    (((allPumpOk.openFileOk entryNE.name && allPumpOk.putOk entryNE.name &&
          allPumpOk.sendOk entryNE.name) = true →
        pushIter allPumpOk cfgSample ([] ++ entryNE :: []) =
          ⟨(pushIter allPumpOk cfgSample []).fatal,
           (pushIter allPumpOk cfgSample []).trace
             ++ ([.fileOpen (closedPath entryNE.name),
                  .s3Put cfgSample.bucket (s3KeyOf cfgSample entryNE.name) "attachment",
                  .sqsSend cfgSample.queue (sqsBody cfgSample entryNE.name)]
                ++ (if allPumpOk.removeOk entryNE.name
                    then [PumpEv.removeF (closedPath entryNE.name)]
                    else [PumpEv.removeF (closedPath entryNE.name),
                          PumpEv.logRemoveErr (closedPath entryNE.name)]))
             ++ (pushIter allPumpOk cfgSample []).trace,
           (pushIter allPumpOk cfgSample []).remaining
             ++ (if allPumpOk.removeOk entryNE.name then [] else [entryNE])
             ++ (pushIter allPumpOk cfgSample []).remaining⟩) ∧
      ((allPumpOk.openFileOk entryNE.name && allPumpOk.putOk entryNE.name &&
          allPumpOk.sendOk entryNE.name) = false →
        (pushIter allPumpOk cfgSample ([] ++ entryNE :: [])).fatal = true ∧
        entryNE ∈ (pushIter allPumpOk cfgSample ([] ++ entryNE :: [])).remaining ∧
        (pushIter allPumpOk cfgSample ([] ++ entryNE :: [])).remaining =
          (pushIter allPumpOk cfgSample []).remaining ++ (entryNE :: []) ∧
        (pushIter allPumpOk cfgSample ([] ++ entryNE :: [])).trace =
          (pushIter allPumpOk cfgSample []).trace
            ++ (uploadS3File allPumpOk cfgSample entryNE.name).2)) :=
  ⟨rfl, by decide, pump_nonempty_file allPumpOk cfgSample [] [] entryNE rfl (by decide)⟩

/-- C9: a zero-byte file the pump reaches in one iteration is removed from
the closed directory without any upload and without any queue notification:
its whole contribution to the iteration is the single remove call. -/
theorem pump_empty_file (env : PumpEnv) (cfg : PumpCfg) (pre post : List FileEntry)
    (e : FileEntry) (hpre : (pushIter env cfg pre).fatal = false) (hsz : e.size = 0)
    (hrm : env.removeOk e.name = true) :
    processEntry env cfg e = (.removed, [.removeF (closedPath e.name)]) ∧
    pushIter env cfg (pre ++ e :: post) =
      ⟨(pushIter env cfg post).fatal,
       (pushIter env cfg pre).trace ++ [PumpEv.removeF (closedPath e.name)]
         ++ (pushIter env cfg post).trace,
       (pushIter env cfg pre).remaining ++ (pushIter env cfg post).remaining⟩ := by
  have hpe : processEntry env cfg e = (.removed, [.removeF (closedPath e.name)]) := by
    simp [processEntry, hsz, hrm]
  refine ⟨hpe, ?_⟩
  rw [pushIter_append env cfg pre (e :: post) hpre]
  simp [pushIter, hpe, List.append_assoc]

theorem pump_empty_file_witness :
    (pushIter allPumpOk cfgSample []).fatal = false ∧ entryZero.size = 0 ∧
    allPumpOk.removeOk entryZero.name = true ∧
    (processEntry allPumpOk cfgSample entryZero =
        (.removed, [.removeF (closedPath entryZero.name)]) ∧
     pushIter allPumpOk cfgSample ([] ++ entryZero :: []) =
       ⟨(pushIter allPumpOk cfgSample []).fatal,
        (pushIter allPumpOk cfgSample []).trace ++ [PumpEv.removeF (closedPath entryZero.name)]
          ++ (pushIter allPumpOk cfgSample []).trace,
        (pushIter allPumpOk cfgSample []).remaining
          ++ (pushIter allPumpOk cfgSample []).remaining⟩) :=
  ⟨rfl, rfl, rfl, pump_empty_file allPumpOk cfgSample [] [] entryZero rfl rfl rfl⟩
